import Mathlib

/-!
# Listify — Media Catalog & Tracking Lifecycle: shallow embedding

A shallow embedding of the core CRUD layer of the Listify backend
(`src/backend/crud/{tag,media,tracking}.py` together with the SQLAlchemy
models in `src/backend/models/`).  The database is modelled as an explicit
state (`DB`): lists of rows plus surrogate-key counters.  Each CRUD
operation becomes a pure function `DB → Except CrudError (result × DB)`;
an `Except.error` models a raised exception together with the transaction
rollback performed by the `except` blocks (the observable state is then the
pre-call state).  SQL `ILIKE` is modelled by an executable case-insensitive
`LIKE` pattern matcher; the `UNIQUE` constraints declared on the tables
(`tags.name`, `tags.slug`) are enforced at row insertion, which models the
`IntegrityError` the database raises at commit time.  Python truthiness of
`Optional[int]` / `Optional[str]` values (`if user_id:`, `if external_id:`)
is modelled explicitly, since `0`, `""` and `None` are all falsy.
File-asset deletion and cache invalidation are external side effects with
no influence on the database state and are not part of the model.
-/

namespace Listify

/-- `MediaTypeEnum` from `models/media.py`. -/
inductive MediaType where
  | movie
  | series
  | anime
  | manga
  | book
  | game
deriving DecidableEq

/-- `TrackingStatusEnum` from `models/tracking.py`. -/
inductive TrackingStatus where
  | planned
  | in_progress
  | completed
  | dropped
  | on_hold
deriving DecidableEq

/-- `TrackingPriorityEnum` from `models/tracking.py`. -/
inductive TrackingPriority where
  | low
  | mid
  | high
deriving DecidableEq

/-- Python truthiness of an `Optional[str]`: `None` and `""` are falsy. -/
def optStrTruthy : Option String → Bool
  | none => false
  | some s => !(s == "")

/-- Python truthiness of an `Optional[int]` id: `None` and `0` are falsy. -/
def optNatTruthy : Option Nat → Bool
  | none => false
  | some u => !(u == 0)

/-- Python `str.lower()`: each character lower-cased. -/
def pyLower (s : String) : String :=
  String.mk (s.data.map Char.toLower)

/-- Python `str.strip()`: leading and trailing whitespace removed. -/
def pyStrip (s : String) : String :=
  String.mk
    (((s.data.dropWhile Char.isWhitespace).reverse.dropWhile
        Char.isWhitespace).reverse)

/-- A character matched by the regex class `\w` (word character). -/
def isWordChar (c : Char) : Bool :=
  c.isAlphanum || c == '_'

/-- A character matched by the regex class `[-\s]` (hyphen or whitespace). -/
def isDashOrSpace (c : Char) : Bool :=
  c == '-' || c.isWhitespace

/-- Replace every maximal run of hyphen/whitespace characters by a single
hyphen, as `re.sub(r"[-\s]+", "-", text)` does.  The boolean flag records
whether the previous character belonged to such a run. -/
def collapseRuns : List Char → Bool → List Char
  | [], _ => []
  | c :: rest, inRun =>
    if isDashOrSpace c then
      if inRun then collapseRuns rest true
      else '-' :: collapseRuns rest true
    else
      c :: collapseRuns rest false

/-- `CRUDTag._slugify` from `crud/tag.py`: lower-case, strip, drop every
character outside `[\w\s-]`, then collapse hyphen/whitespace runs to a
single hyphen. -/
def slugify (text : String) : String :=
  let t := pyStrip (pyLower text)
  let kept := t.data.filter (fun c => isWordChar c || c.isWhitespace || c == '-')
  String.mk (collapseRuns kept false)

/-- `anySuffix f s` holds when `f` accepts some suffix of `s` (including
`s` itself and the empty suffix). -/
def anySuffix (f : List Char → Bool) : List Char → Bool
  | [] => f []
  | c :: cs => f (c :: cs) || anySuffix f cs

/-- SQL `LIKE` pattern matching on character lists: `%` matches any
sequence (the rest of the pattern must match some suffix of the text),
`_` matches any single character, anything else matches itself. -/
def likeMatch : List Char → List Char → Bool
  | [], s => s.isEmpty
  | '%' :: ps, s => anySuffix (likeMatch ps) s
  | '_' :: ps, s =>
    match s with
    | [] => false
    | _ :: cs => likeMatch ps cs
  | p :: ps, s =>
    match s with
    | [] => false
    | c :: cs => (p == c) && likeMatch ps cs

/-- SQLAlchemy `column.ilike(pattern)`: case-insensitive `LIKE`. -/
def ilike (value pattern : String) : Bool :=
  likeMatch (pyLower pattern).data (pyLower value).data

/-- A row of the `tags` table (`models/tag.py`). -/
structure TagRow where
  id : Nat
  name : String
  slug : String
deriving DecidableEq

/-- A row of the `media_tags` association table (`models/tag.py`). -/
structure MediaTagRow where
  media_id : Nat
  tag_id : Nat
  media_type : MediaType
deriving DecidableEq

/-- A row of the `media` table (`models/media.py`); the per-kind subtype
columns live in joined subtype tables and take no part in the invariants
modelled here, so only the shared base columns are carried.  Dates are
coded as natural numbers. -/
structure MediaRow where
  id : Nat
  media_type : MediaType
  title : String
  description : Option String
  release_date : Option Nat
  cover_image_url : Option String
  external_id : Option String
  external_source : Option String
  is_custom : Bool
  created_by_id : Option Nat
deriving DecidableEq

/-- A row of the `tracking` table (`models/tracking.py`).  The `Float`
rating column is modelled by `Rat` (no arithmetic on it occurs in the
modelled operations). -/
structure TrackingRow where
  id : Nat
  user_id : Nat
  media_id : Nat
  media_type : MediaType
  status : TrackingStatus
  priority : Option TrackingPriority
  rating : Option Rat
  progress : Int
  start_date : Option Nat
  end_date : Option Nat
  favorite : Bool
  notes : Option String
deriving DecidableEq

/-- The database state: the four tables touched by the modelled operations
plus the surrogate-key counters. -/
structure DB where
  media : List MediaRow
  tags : List TagRow
  media_tags : List MediaTagRow
  tracking : List TrackingRow
  next_media_id : Nat
  next_tag_id : Nat
  next_tracking_id : Nat
deriving DecidableEq

/-- The error taxonomy raised by the CRUD layer (`core/exceptions.py`),
plus the database's own `IntegrityError` for unique-constraint violations
surfacing at commit. -/
inductive CrudError where
  | alreadyExists
  | permissionDenied
  | notFound
  | integrityViolation
deriving DecidableEq

/-! ## Tag Normalizer and Tag Association Manager (`crud/tag.py`) -/

/-- `CRUDTag.get_by_name`: case-insensitive lookup by name, returning the
first match (`.first()`). -/
def get_by_name (db : DB) (name : String) : Option TagRow :=
  db.tags.find? (fun t => ilike t.name name)

/-- `CRUDTag.get_by_slug`: exact lookup by slug. -/
def get_by_slug (db : DB) (slug : String) : Option TagRow :=
  db.tags.find? (fun t => t.slug == slug)

/-- Insert a new tag row.  The `tags` table declares `name` and `slug`
`unique=True`, so a clash on either raises `IntegrityError` at commit,
modelled here as `integrityViolation`. -/
def insertTag (db : DB) (name slug : String) : Except CrudError (TagRow × DB) :=
  if db.tags.any (fun t => t.name == name || t.slug == slug) then
    .error .integrityViolation
  else
    let tag : TagRow := ⟨db.next_tag_id, name, slug⟩
    .ok (tag, { db with tags := db.tags ++ [tag], next_tag_id := db.next_tag_id + 1 })

/-- `CRUDTag.get_or_create`: strip the name, look it up case-insensitively,
and if absent create a tag whose slug is the plain `_slugify` of the
stripped name. -/
def get_or_create (db : DB) (name : String) : Except CrudError (TagRow × DB) :=
  let name := pyStrip name
  match get_by_name db name with
  | some t => .ok (t, db)
  | none => insertTag db name (slugify name)

/-- One step of the de-duplication loop at the top of
`CRUDTag.add_tags_to_media`: strip the name, skip it when empty or when
its lower-cased form was already seen, otherwise keep it and record the
lower-cased form.  The accumulator pairs the kept names with the set (as a
list) of lower-cased forms already seen. -/
def dedupStep (acc : List String × List String) (n : String) :
    List String × List String :=
  let n := pyStrip n
  if !(n == "") && !(acc.2.contains (pyLower n)) then
    (acc.1 ++ [n], acc.2 ++ [pyLower n])
  else acc

/-- The case-insensitive, order-preserving de-duplication performed at the
top of `CRUDTag.add_tags_to_media`. -/
def dedupNames (tag_names : List String) : List String :=
  (tag_names.foldl dedupStep ([], [])).1

/-- One iteration of the loop in `CRUDTag.add_tags_to_media`: get-or-create
the tag, then create the association unless it already exists. -/
def addOneTag (media_id : Nat) (media_type : MediaType) (db : DB) (n : String) :
    Except CrudError DB := do
  let (tag, db) ← get_or_create db n
  if db.media_tags.any (fun a => a.media_id == media_id && a.tag_id == tag.id) then
    pure db
  else
    pure { db with
           media_tags := db.media_tags ++ [⟨media_id, tag.id, media_type⟩] }

/-- `CRUDTag.add_tags_to_media`: an empty list is a no-op; otherwise
de-duplicate the names and process each in order. -/
def add_tags_to_media (db : DB) (media_id : Nat) (media_type : MediaType)
    (tag_names : List String) : Except CrudError DB :=
  if tag_names.isEmpty then .ok db
  else (dedupNames tag_names).foldlM (addOneTag media_id media_type) db

/-- `CRUDTag.remove_tags_from_media`: delete the media's associations;
`tag_ids` restricts the deletion only when it is a truthy (non-empty)
list, exactly as `if tag_ids:` does. -/
def remove_tags_from_media (db : DB) (media_id : Nat)
    (tag_ids : Option (List Nat)) : DB :=
  { db with
    media_tags := db.media_tags.filter (fun a =>
      !(a.media_id == media_id &&
        (match tag_ids with
         | some (t :: ts) => (t :: ts).contains a.tag_id
         | _ => true))) }

/-- `CRUDTag.update_media_tags`: remove all existing associations of the
media, then add the supplied names. -/
def update_media_tags (db : DB) (media_id : Nat) (media_type : MediaType)
    (tag_names : List String) : Except CrudError DB :=
  add_tags_to_media (remove_tags_from_media db media_id none)
    media_id media_type tag_names

/-! ## Media Catalog (`crud/media.py`) -/

/-- The create payload after `model_dump(exclude_unset=True)` of the
`MediaCreate` schemas (`schemas/media.py`): the base columns plus the
optional tag list; an unset field carries its schema default. -/
structure MediaCreate where
  title : String
  description : Option String := none
  release_date : Option Nat := none
  cover_image_url : Option String := none
  external_id : Option String := none
  external_source : Option String := none
  is_custom : Bool := false
  tags : Option (List String) := none
deriving DecidableEq

/-- The update payload after
`model_dump(exclude_unset=True, exclude_none=True)` of the `MediaUpdate`
schemas: only these five keys exist, and a key that is absent or `None` is
simply not applied, so `none` covers both. -/
structure MediaUpdate where
  title : Option String := none
  description : Option String := none
  release_date : Option Nat := none
  cover_image_url : Option String := none
  tags : Option (List String) := none
deriving DecidableEq

/-- `CRUDMedia.get_by_id`: lookup by primary key, optionally filtered by
media type. -/
def get_by_id (db : DB) (id : Nat) (media_type : Option MediaType) :
    Option MediaRow :=
  db.media.find? (fun m => m.id == id &&
    (match media_type with
     | some t => m.media_type == t
     | none => true))

/-- `CRUDMedia.get_by_external_id`: lookup by the dedup key
`(external_id, external_source, media_type)`. -/
def get_by_external_id (db : DB) (external_id external_source : String)
    (media_type : MediaType) : Option MediaRow :=
  db.media.find? (fun m =>
    m.external_id == some external_id &&
    m.external_source == some external_source &&
    m.media_type == media_type)

/-- The duplicate check for custom media inside `CRUDMedia._create_with_tags`:
same user, same kind, `is_custom`, title matched with `ilike`, and the
release date equal (or both absent — `release_date` is truthy exactly when
present, dates being always truthy in Python). -/
def customDuplicate (db : DB) (user_id : Nat) (media_type : MediaType)
    (title : String) (release_date : Option Nat) : Bool :=
  db.media.any (fun m =>
    m.is_custom && m.created_by_id == some user_id &&
    m.media_type == media_type && ilike m.title title &&
    (match release_date with
     | some d => m.release_date == some d
     | none => m.release_date == none))

/-- `CRUDMedia._create_with_tags` (the shared body of
`create_movie` … `create_game`):
1. if `external_id` and `external_source` are both truthy and the dedup key
   already exists, return the existing row untouched;
2. if the payload is custom and `user_id` is truthy, reject duplicates by
   (user, kind, title, release date) with `AlreadyExists`, else stamp
   `created_by_id`;
3. insert the row, then hand the tag list (only when truthy: `if tags:`)
   to the Tag Association Manager. -/
def createMedia (db : DB) (attrs : MediaCreate) (media_type : MediaType)
    (user_id : Option Nat) : Except CrudError (Nat × DB) :=
  let extHit :=
    if optStrTruthy attrs.external_id && optStrTruthy attrs.external_source then
      get_by_external_id db (attrs.external_id.getD "")
        (attrs.external_source.getD "") media_type
    else none
  match extHit with
  | some existing => .ok (existing.id, db)
  | none =>
    let isCustomOwned := attrs.is_custom && optNatTruthy user_id
    if isCustomOwned &&
        customDuplicate db (user_id.getD 0) media_type attrs.title
          attrs.release_date then
      .error .alreadyExists
    else
      let row : MediaRow :=
        { id := db.next_media_id
          media_type := media_type
          title := attrs.title
          description := attrs.description
          release_date := attrs.release_date
          cover_image_url := attrs.cover_image_url
          external_id := attrs.external_id
          external_source := attrs.external_source
          is_custom := attrs.is_custom
          created_by_id := if isCustomOwned then user_id else none }
      let db1 := { db with
                   media := db.media ++ [row]
                   next_media_id := db.next_media_id + 1 }
      let afterTags : Except CrudError DB :=
        match attrs.tags with
        | some (n :: ns) => add_tags_to_media db1 row.id media_type (n :: ns)
        | _ => .ok db1
      match afterTags with
      | .ok db2 => .ok (row.id, db2)
      | .error e => .error e

/-- `CRUDMedia.can_modify_media`: never for non-custom rows, otherwise only
for the creator. -/
def can_modify_media (media : MediaRow) (user_id : Nat) : Bool :=
  if !media.is_custom then false
  else media.created_by_id == some user_id

/-- Applying the non-tag update fields to a row, as the `setattr` loop of
`CRUDMedia._update_with_tags` does after
`model_dump(exclude_unset=True, exclude_none=True)`. -/
def applyMediaUpdate (m : MediaRow) (u : MediaUpdate) : MediaRow :=
  { m with
    title := u.title.getD m.title
    description := match u.description with
                   | some v => some v
                   | none => m.description
    release_date := match u.release_date with
                    | some v => some v
                    | none => m.release_date
    cover_image_url := match u.cover_image_url with
                       | some v => some v
                       | none => m.cover_image_url }

/-- `CRUDMedia._update_with_tags` (the shared body of
`update_movie` … `update_game`, which bail out with `None`/`NotFound` when
the id does not resolve): the ownership check runs only when `user_id` is
truthy; supplied non-null fields are applied; when the `tags` key is
present (even as `[]`) the full tag set is replaced. -/
def updateMedia (db : DB) (id : Nat) (attrs : MediaUpdate)
    (user_id : Option Nat) : Except CrudError DB :=
  match get_by_id db id none with
  | none => .error .notFound
  | some media =>
    if optNatTruthy user_id && !can_modify_media media (user_id.getD 0) then
      .error .permissionDenied
    else
      let media' := applyMediaUpdate media attrs
      let db1 := { db with
                   media := db.media.map (fun m =>
                     if m.id == id then media' else m) }
      match attrs.tags with
      | some names => update_media_tags db1 id media.media_type names
      | none => .ok db1

/-- `CRUDMedia.delete`: missing id returns `false`; the ownership check
runs only when `user_id` is truthy; the row deletion cascades into the
media's tag associations and tracking entries
(`cascade="all, delete-orphan"`).  The best-effort cover-file removal and
the cache invalidation touch no database state. -/
def deleteMedia (db : DB) (id : Nat) (user_id : Option Nat) :
    Except CrudError (Bool × DB) :=
  match get_by_id db id none with
  | none => .ok (false, db)
  | some media =>
    if optNatTruthy user_id && !can_modify_media media (user_id.getD 0) then
      .error .permissionDenied
    else
      .ok (true,
        { db with
          media := db.media.filter (fun m => !(m.id == id))
          media_tags := db.media_tags.filter (fun a => !(a.media_id == id))
          tracking := db.tracking.filter (fun t => !(t.media_id == id)) })

/-- The ids selected by `CRUDMedia.cleanup_orphaned_media`: media whose id
appears in no tracking row. -/
def orphanedIds (db : DB) : List Nat :=
  (db.media.filter (fun m =>
    !(db.tracking.any (fun t => t.media_id == m.id)))).map (fun m => m.id)

/-- The loop body of `CRUDMedia.cleanup_orphaned_media`:
`if await self.delete(db, id=media_id, commit=False): count += 1`,
with `user_id` absent. -/
def sweepStep (acc : Nat × DB) (mid : Nat) : Except CrudError (Nat × DB) := do
  let (deleted, st) ← deleteMedia acc.2 mid none
  pure (if deleted then acc.1 + 1 else acc.1, st)

/-- `CRUDMedia.cleanup_orphaned_media`: delete every orphaned id through
`CRUDMedia.delete` with no `user_id` (ownership bypassed), counting the
deletions that reported `true`, with a single commit at the end. -/
def cleanup_orphaned_media (db : DB) : Except CrudError (Nat × DB) :=
  (orphanedIds db).foldlM sweepStep (0, db)

/-! ## Tracking Lifecycle (`crud/tracking.py`) -/

/-- The create payload after `model_dump(exclude_unset=True)` of
`TrackingCreate` (`schemas/tracking.py`); unset fields carry their schema
defaults. -/
structure TrackingCreate where
  media_id : Nat
  media_type : MediaType
  status : TrackingStatus
  priority : Option TrackingPriority := none
  rating : Option Rat := none
  progress : Int := 0
  start_date : Option Nat := none
  end_date : Option Nat := none
  favorite : Bool := false
  notes : Option String := none
deriving DecidableEq

/-- The update payload after `model_dump(exclude_unset=True)` of
`TrackingUpdate`: `exclude_none` is NOT used here, so a field explicitly
supplied as `null` is applied (outer `Option` = supplied?, inner value =
the value written, itself nullable for the nullable columns). -/
structure TrackingUpdate where
  status : Option TrackingStatus := none
  priority : Option (Option TrackingPriority) := none
  rating : Option (Option Rat) := none
  progress : Option Int := none
  start_date : Option (Option Nat) := none
  end_date : Option (Option Nat) := none
  favorite : Option Bool := none
  notes : Option (Option String) := none
deriving DecidableEq

/-- The `setattr` merge loop of `CRUDTracking.update`: every supplied field
overwrites the row's value. -/
def mergeTracking (t : TrackingRow) (u : TrackingUpdate) : TrackingRow :=
  { t with
    status := u.status.getD t.status
    priority := u.priority.getD t.priority
    rating := u.rating.getD t.rating
    progress := u.progress.getD t.progress
    start_date := u.start_date.getD t.start_date
    end_date := u.end_date.getD t.end_date
    favorite := u.favorite.getD t.favorite
    notes := u.notes.getD t.notes }

/-- `CRUDTracking._apply_data_integrity_rules`, five in-place mutations in
source order; `today` stands for `date.today()`. -/
def apply_data_integrity_rules (today : Nat) (t : TrackingRow) : TrackingRow :=
  let t := if t.status != .planned then { t with priority := none } else t
  let t := if t.status == .planned then
      { t with rating := none, progress := 0, start_date := none,
               end_date := none }
    else t
  let t := if t.status == .in_progress && t.start_date == none then
      { t with start_date := some today }
    else t
  let t := if (t.status == .completed || t.status == .dropped) &&
        t.end_date == none then
      { t with end_date := some today }
    else t
  let t := if !(t.status == .completed || t.status == .dropped) then
      { t with end_date := none }
    else t
  t

/-- `CRUDTracking.get_by_user_and_media`: the entry for `(user_id,
media_id)`, unique by the `uq_user_media` constraint. -/
def get_by_user_and_media (db : DB) (user_id media_id : Nat) :
    Option TrackingRow :=
  db.tracking.find? (fun t => t.user_id == user_id && t.media_id == media_id)

/-- The row built from a create payload before the integrity rules run. -/
def initTrackingRow (db : DB) (obj : TrackingCreate) (user_id : Nat) :
    TrackingRow :=
  { id := db.next_tracking_id
    user_id := user_id
    media_id := obj.media_id
    media_type := obj.media_type
    status := obj.status
    priority := obj.priority
    rating := obj.rating
    progress := obj.progress
    start_date := obj.start_date
    end_date := obj.end_date
    favorite := obj.favorite
    notes := obj.notes }

/-- `CRUDTracking.create`: reject a second entry for `(user_id, media_id)`
with `AlreadyExists`, apply the integrity rules to the new row, insert it
and return it. -/
def trackingCreate (db : DB) (obj : TrackingCreate) (user_id : Nat)
    (today : Nat) : Except CrudError (TrackingRow × DB) :=
  match get_by_user_and_media db user_id obj.media_id with
  | some _ => .error .alreadyExists
  | none =>
    let row := apply_data_integrity_rules today (initTrackingRow db obj user_id)
    .ok (row, { db with
                tracking := db.tracking ++ [row]
                next_tracking_id := db.next_tracking_id + 1 })

/-- `CRUDTracking.update`: merge the supplied fields onto the row, apply
the integrity rules, commit, and return the updated row. -/
def trackingUpdate (db : DB) (tracking_id : Nat) (obj : TrackingUpdate)
    (today : Nat) : Except CrudError (TrackingRow × DB) :=
  match db.tracking.find? (fun t => t.id == tracking_id) with
  | none => .error .notFound
  | some t =>
    let t' := apply_data_integrity_rules today (mergeTracking t obj)
    .ok (t', { db with
               tracking := db.tracking.map (fun r =>
                 if r.id == tracking_id then t' else r) })

/-- `CRUDTracking.delete`: `false` when no entry exists; otherwise read the
media's `is_custom`/`created_by_id` (through the foreign-key relationship,
so the media row must exist), delete the entry, and when the media is
custom cascade into `CRUDMedia.delete(media_id, user_id=created_by_id,
commit=False)` so both deletions commit in one transaction. -/
def trackingDelete (db : DB) (user_id media_id : Nat) :
    Except CrudError (Bool × DB) :=
  match get_by_user_and_media db user_id media_id with
  | none => .ok (false, db)
  | some tr =>
    match get_by_id db media_id none with
    | none => .error .notFound
    | some media =>
      let db1 := { db with
                   tracking := db.tracking.filter (fun t => !(t.id == tr.id)) }
      if media.is_custom then
        match deleteMedia db1 media_id media.created_by_id with
        | .ok (_, db2) => .ok (true, db2)
        | .error e => .error e
      else
        .ok (true, db1)

/-! ## Derived predicates -/

/-- The five status-integrity postconditions of spec §4.3, stated against
the field values `t0` the entry had when the rules started running and the
entry `t` they produced. -/
def integrityPost (today : Nat) (t0 t : TrackingRow) : Prop :=
  (t.status ≠ .planned → t.priority = none) ∧
  (t.status = .planned →
    t.rating = none ∧ t.progress = 0 ∧ t.start_date = none ∧
      t.end_date = none) ∧
  (t.status = .in_progress → t0.start_date = none →
    t.start_date = some today) ∧
  ((t.status = .completed ∨ t.status = .dropped) → t0.end_date = none →
    t.end_date = some today) ∧
  (¬(t.status = .completed ∨ t.status = .dropped) → t.end_date = none)

/-! ## Concrete fixtures used by the witness theorems -/

/-- The empty database. -/
def dbEmpty : DB := ⟨[], [], [], [], 1, 1, 1⟩

/-- A non-custom (externally sourced) movie row with id 1. -/
def exMovieExt : MediaRow :=
  { id := 1, media_type := .movie, title := "Dune"
    description := none, release_date := some 100
    cover_image_url := none
    external_id := some "438631", external_source := some "tmdb"
    is_custom := false, created_by_id := none }

/-- A custom movie row with id 2, created by user 5. -/
def exMovieCustom : MediaRow :=
  { id := 2, media_type := .movie, title := "Home Video"
    description := none, release_date := none
    cover_image_url := none
    external_id := none, external_source := none
    is_custom := true, created_by_id := some 5 }

/-- A tracking entry of user 5 on media 2. -/
def exTrackingCustom : TrackingRow :=
  { id := 1, user_id := 5, media_id := 2, media_type := .movie
    status := .completed, priority := none, rating := none, progress := 3
    start_date := none, end_date := some 50, favorite := false
    notes := none }

/-- A tracking entry of user 5 on media 1. -/
def exTrackingExt : TrackingRow :=
  { id := 2, user_id := 5, media_id := 1, media_type := .movie
    status := .in_progress, priority := none, rating := none, progress := 1
    start_date := some 40, end_date := none, favorite := false
    notes := none }

/-- A database holding both movies and both tracking entries. -/
def exDbFull : DB :=
  ⟨[exMovieExt, exMovieCustom], [], [], [exTrackingCustom, exTrackingExt],
    3, 1, 3⟩

/-- A database holding both movies but only the entry on media 1, so media
2 is an orphan. -/
def exDbOrphan : DB :=
  ⟨[exMovieExt, exMovieCustom], [], [], [exTrackingExt], 3, 1, 3⟩

/-- The fixed `today` used by the witnesses. -/
def exToday : Nat := 737

/-- A create payload for a planned entry carrying values the integrity
rules must clear (spec §8 scenario). -/
def exTrackCreate : TrackingCreate :=
  { media_id := 1, media_type := .movie, status := .planned
    priority := some .high, rating := some 10, progress := 5 }

/-- An update payload moving an entry to `completed` with a rating. -/
def exTrackUpdate : TrackingUpdate :=
  { status := some .completed, rating := some (some 9) }

/-- An external create payload (dedup key `("438631", "tmdb", movie)`). -/
def exCreateExt : MediaCreate :=
  { title := "Dune", release_date := some 100
    external_id := some "438631", external_source := some "tmdb" }

/-- A custom create payload duplicating `exMovieCustom` up to case. -/
def exCreateCustomDup : MediaCreate :=
  { title := "HOME VIDEO", is_custom := true }

/-- An update payload touching only the title. -/
def exUpdateTitle : MediaUpdate :=
  { title := some "Renamed" }

/-- An update payload with no supplied field. -/
def exUpdateNothing : MediaUpdate := {}

/-- An update payload renaming the title and replacing the tag set with
names containing a case-duplicate and surrounding whitespace. -/
def exUpdateWithTags : MediaUpdate :=
  { title := some "Renamed", tags := some ["Action", "ACTION", " Drama "] }

/-- Two distinct tag names whose slugified forms coincide. -/
def exName1 : String := "Sci Fi"

/-- See `exName1`. -/
def exName2 : String := "Sci-Fi"

/-- The common slug of `exName1` and `exName2`. -/
def exSlug : String := "sci-fi"

/-- The tag row created for `exName1` on the empty database. -/
def exTag1 : TagRow := ⟨1, exName1, exSlug⟩

/-- The database after `get_or_create` of `exName1` on `dbEmpty`. -/
def exDbTag1 : DB := ⟨[], [exTag1], [], [], 1, 2, 1⟩

/-! ## General lemmas -/

/-- When `f` accepts the whole text, `anySuffix f` accepts it. -/
theorem anySuffix_of_self {f : List Char → Bool} {s : List Char}
    (h : f s = true) : anySuffix f s = true := by
  cases s <;> simp [anySuffix, h]

/-- A `LIKE` pattern always matches its own text: `%` can stand for the
literal `%`, `_` for itself, and every other character matches itself. -/
theorem likeMatch_self : ∀ l : List Char, likeMatch l l = true := by
  intro l
  induction l with
  | nil => rfl
  | cons c cs ih =>
    by_cases hpc : c = '%'
    · subst hpc
      rw [likeMatch.eq_2]
      have h1 : anySuffix (likeMatch cs) cs = true := anySuffix_of_self ih
      cases cs <;> simp_all [anySuffix]
    · by_cases hpu : c = '_'
      · subst hpu
        rw [likeMatch.eq_4]
        exact ih
      · rw [likeMatch.eq_6 c cs c cs (fun h => hpc h) (fun h => hpu h)]
        simp [ih]

/-- Case-insensitively equal strings `ILIKE`-match each other. -/
theorem ilike_of_lower_eq {value pattern : String}
    (h : pyLower value = pyLower pattern) : ilike value pattern = true := by
  unfold ilike
  rw [h]
  exact likeMatch_self _

/-- The integrity rules leave the status untouched and establish the five
postconditions. -/
theorem integrityPost_apply (today : Nat) (t0 : TrackingRow) :
    (apply_data_integrity_rules today t0).status = t0.status ∧
      integrityPost today t0 (apply_data_integrity_rules today t0) := by
  obtain ⟨id, uid, mid, mt, status, prio, rat, prog, sd, ed, fav, nts⟩ := t0
  cases status <;> cases sd <;> cases ed <;>
    simp [apply_data_integrity_rules, integrityPost]

/-- C5: the integrity rule set is idempotent for a fixed `today`. -/
theorem integrity_rules_idem (today : Nat) (t : TrackingRow) :
    apply_data_integrity_rules today (apply_data_integrity_rules today t) =
      apply_data_integrity_rules today t := by
  obtain ⟨id, uid, mid, mt, status, prio, rat, prog, sd, ed, fav, nts⟩ := t
  cases status <;> cases sd <;> cases ed <;>
    simp [apply_data_integrity_rules]

/-- C3: every tracking entry returned by `create` or `update` is the result
of applying the five integrity rules, in source order, to the merged field
values, and therefore satisfies the five status-integrity postconditions
(stated with respect to the merged pre-rule values). -/
theorem tracking_integrity_postcondition (db : DB) (today : Nat) :
    (∀ obj uid t' db',
        trackingCreate db obj uid today = .ok (t', db') →
        t' = apply_data_integrity_rules today (initTrackingRow db obj uid) ∧
          integrityPost today (initTrackingRow db obj uid) t') ∧
    (∀ tid obj t t' db',
        db.tracking.find? (fun r => r.id == tid) = some t →
        trackingUpdate db tid obj today = .ok (t', db') →
        t' = apply_data_integrity_rules today (mergeTracking t obj) ∧
          integrityPost today (mergeTracking t obj) t') := by
  constructor
  · intro obj uid t' db' hok
    unfold trackingCreate at hok
    split at hok
    · cases hok
    · simp only [Except.ok.injEq, Prod.mk.injEq] at hok
      obtain ⟨ht, _⟩ := hok
      subst ht
      exact ⟨rfl, (integrityPost_apply today _).2⟩
  · intro tid obj t t' db' hfind hok
    unfold trackingUpdate at hok
    rw [hfind] at hok
    simp only [Except.ok.injEq, Prod.mk.injEq] at hok
    obtain ⟨ht, _⟩ := hok
    subst ht
    exact ⟨rfl, (integrityPost_apply today _).2⟩

/-- `insertTag` can only fail with the database's integrity violation. -/
theorem insertTag_error {db : DB} {n s : String} {e : CrudError}
    (h : insertTag db n s = .error e) : e = .integrityViolation := by
  unfold insertTag at h
  split at h
  · cases h; rfl
  · cases h

/-- `get_or_create` can only fail with the database's integrity
violation. -/
theorem get_or_create_error {db : DB} {n : String} {e : CrudError}
    (h : get_or_create db n = .error e) : e = .integrityViolation := by
  unfold get_or_create at h
  simp only [] at h
  split at h
  · cases h
  · exact insertTag_error h

/-- `addOneTag` can only fail with the database's integrity violation. -/
theorem addOneTag_error {mid : Nat} {mt : MediaType} {db : DB} {n : String}
    {e : CrudError} (h : addOneTag mid mt db n = .error e) :
    e = .integrityViolation := by
  unfold addOneTag at h
  cases hg : get_or_create db n with
  | error e' =>
    rw [hg] at h
    simp only [bind, Except.bind] at h
    cases h
    exact get_or_create_error hg
  | ok p =>
    rw [hg] at h
    simp only [bind, Except.bind] at h
    split at h <;> cases h

/-- The tag-adding fold can only fail with the database's integrity
violation. -/
theorem foldl_addOneTag_error {mid : Nat} {mt : MediaType} :
    ∀ (names : List String) (db : DB) {e : CrudError},
      names.foldlM (addOneTag mid mt) db = .error e →
      e = .integrityViolation := by
  intro names
  induction names with
  | nil => intro db e h; simp [List.foldlM_nil, pure, Except.pure] at h
  | cons n ns ih =>
    intro db e h
    rw [List.foldlM_cons] at h
    cases hg : addOneTag mid mt db n with
    | error e' =>
      rw [hg] at h
      simp only [bind, Except.bind] at h
      cases h
      exact addOneTag_error hg
    | ok db' =>
      rw [hg] at h
      simp only [bind, Except.bind] at h
      exact ih db' h

/-- `add_tags_to_media` can only fail with the database's integrity
violation. -/
theorem add_tags_to_media_error {db : DB} {mid : Nat} {mt : MediaType}
    {names : List String} {e : CrudError}
    (h : add_tags_to_media db mid mt names = .error e) :
    e = .integrityViolation := by
  unfold add_tags_to_media at h
  split at h
  · cases h
  · exact foldl_addOneTag_error _ _ h

/-- `update_media_tags` can only fail with the database's integrity
violation. -/
theorem update_media_tags_error {db : DB} {mid : Nat} {mt : MediaType}
    {names : List String} {e : CrudError}
    (h : update_media_tags db mid mt names = .error e) :
    e = .integrityViolation := by
  unfold update_media_tags at h
  exact add_tags_to_media_error h

/-- C3 witness: the §8 scenario — a planned create with rating 10,
progress 5, priority high keeps the priority but loses rating, progress
and dates; an update of an in-progress entry to completed stamps
`end_date` with today. -/
theorem tracking_integrity_postcondition_witness :
    integrityPost exToday (initTrackingRow dbEmpty exTrackCreate 5)
      (apply_data_integrity_rules exToday
        (initTrackingRow dbEmpty exTrackCreate 5)) ∧
    integrityPost exToday (mergeTracking exTrackingExt exTrackUpdate)
      (apply_data_integrity_rules exToday
        (mergeTracking exTrackingExt exTrackUpdate)) := by
  constructor
  · exact ((tracking_integrity_postcondition dbEmpty exToday).1
      exTrackCreate 5 _ _ rfl).2
  · exact ((tracking_integrity_postcondition exDbFull exToday).2
      2 exTrackUpdate exTrackingExt _ _ rfl rfl).2

/-- Reduction of `updateMedia` once the row has been found. -/
theorem updateMedia_found (db : DB) (id : Nat) (attrs : MediaUpdate)
    (uid : Option Nat) (m : MediaRow) (hm : get_by_id db id none = some m) :
    updateMedia db id attrs uid =
      if (optNatTruthy uid && !can_modify_media m (uid.getD 0)) = true then
        .error .permissionDenied
      else
        match attrs.tags with
        | some names =>
          update_media_tags
            { db with media := db.media.map (fun r =>
                if r.id == id then applyMediaUpdate m attrs else r) }
            id m.media_type names
        | none =>
          .ok { db with media := db.media.map (fun r =>
                  if r.id == id then applyMediaUpdate m attrs else r) } := by
  unfold updateMedia
  rw [hm]

/-- Reduction of `deleteMedia` once the row has been found. -/
theorem deleteMedia_found (db : DB) (id : Nat) (uid : Option Nat)
    (m : MediaRow) (hm : get_by_id db id none = some m) :
    deleteMedia db id uid =
      if (optNatTruthy uid && !can_modify_media m (uid.getD 0)) = true then
        .error .permissionDenied
      else
        .ok (true, { db with
          media := db.media.filter (fun r => !(r.id == id))
          media_tags := db.media_tags.filter (fun a => !(a.media_id == id))
          tracking := db.tracking.filter (fun t => !(t.media_id == id)) }) := by
  unfold deleteMedia
  rw [hm]

/-- C4 counterexample: `user_id = 0` is non-null yet falsy, so the
ownership check `if user_id and not can_modify_media(...)` is skipped
entirely: on the non-custom row `exMovieExt` both `update` and `delete`
succeed instead of failing with `PermissionDenied`. -/
theorem media_ownership_cex :
    exMovieExt.is_custom = false ∧
    updateMedia exDbFull 1 exUpdateNothing (some 0) = .ok exDbFull ∧
    updateMedia exDbFull 1 exUpdateNothing (some 0) ≠
      .error .permissionDenied ∧
    deleteMedia exDbFull 1 (some 0) =
      .ok (true, ⟨[exMovieCustom], [], [], [exTrackingCustom], 3, 1, 3⟩) ∧
    deleteMedia exDbFull 1 (some 0) ≠ .error .permissionDenied := by
  have h1 : updateMedia exDbFull 1 exUpdateNothing (some 0) =
      .ok exDbFull := rfl
  have h2 : deleteMedia exDbFull 1 (some 0) =
      .ok (true, ⟨[exMovieCustom], [], [], [exTrackingCustom], 3, 1, 3⟩) :=
    rfl
  refine ⟨rfl, h1, ?_, h2, ?_⟩
  · rw [h1]; simp
  · rw [h2]; simp

/-- C4 amended: for a truthy (non-null, non-zero) `user_id`, `update` and
`delete` on a non-custom row always fail with `PermissionDenied`, and on a
custom row they fail with `PermissionDenied` for every truthy user other
than the creator, while the creator is never refused (update can still
fail only on a tag-uniqueness violation, and delete succeeds).  An error
aborts the transaction, so the failing calls leave the database as it
was. -/
theorem media_ownership_invariant (db : DB) (id u : Nat) (m : MediaRow)
    (attrs : MediaUpdate)
    (hm : get_by_id db id none = some m) (hu : u ≠ 0) :
    (m.is_custom = false →
      updateMedia db id attrs (some u) = .error .permissionDenied ∧
      deleteMedia db id (some u) = .error .permissionDenied) ∧
    (m.is_custom = true → m.created_by_id ≠ some u →
      updateMedia db id attrs (some u) = .error .permissionDenied ∧
      deleteMedia db id (some u) = .error .permissionDenied) ∧
    (m.is_custom = true → m.created_by_id = some u →
      updateMedia db id attrs (some u) ≠ .error .permissionDenied ∧
      ∃ db', deleteMedia db id (some u) = .ok (true, db')) := by
  have htr : optNatTruthy (some u) = true := by
    simp [optNatTruthy, hu]
  refine ⟨?_, ?_, ?_⟩
  · intro hnc
    have hcan : can_modify_media m ((some u : Option Nat).getD 0) = false := by
      simp [can_modify_media, hnc]
    rw [updateMedia_found db id attrs (some u) m hm,
      deleteMedia_found db id (some u) m hm, htr, hcan]
    simp
  · intro hc hnown
    have hcan : can_modify_media m ((some u : Option Nat).getD 0) = false := by
      simp [can_modify_media, hc, hnown]
    rw [updateMedia_found db id attrs (some u) m hm,
      deleteMedia_found db id (some u) m hm, htr, hcan]
    simp
  · intro hc hown
    have hcan : can_modify_media m ((some u : Option Nat).getD 0) = true := by
      simp [can_modify_media, hc, hown]
    constructor
    · rw [updateMedia_found db id attrs (some u) m hm, htr, hcan]
      simp only [Bool.not_true, Bool.and_false, Bool.false_eq_true, if_false]
      split
      · intro hcontra
        have := update_media_tags_error hcontra
        cases this
      · intro hcontra
        cases hcontra
    · rw [deleteMedia_found db id (some u) m hm, htr, hcan]
      simp only [Bool.not_true, Bool.and_false, Bool.false_eq_true, if_false]
      exact ⟨_, rfl⟩

/-- C4 witness: user 9 is refused on the external row 1 and on user 5's
custom row 2, while the creator (user 5) is not refused. -/
theorem media_ownership_invariant_witness :
    (9 : Nat) ≠ 0 ∧
    get_by_id exDbFull 1 none = some exMovieExt ∧
    updateMedia exDbFull 1 exUpdateTitle (some 9) =
      .error .permissionDenied ∧
    deleteMedia exDbFull 2 (some 9) = .error .permissionDenied ∧
    updateMedia exDbFull 2 exUpdateTitle (some 5) ≠
      .error .permissionDenied := by
  refine ⟨by decide, rfl, ?_, ?_, ?_⟩
  · exact ((media_ownership_invariant exDbFull 1 9 exMovieExt exUpdateTitle
      rfl (by decide)).1 rfl).1
  · exact ((media_ownership_invariant exDbFull 2 9 exMovieCustom
      exUpdateTitle rfl (by decide)).2.1 rfl (by decide)).2
  · exact ((media_ownership_invariant exDbFull 2 5 exMovieCustom
      exUpdateTitle rfl (by decide)).2.2 rfl rfl).1

/-- C10: a falsy `user_id` (`None`, or the falsy integer `0`) skips the
ownership check in both `update` and `delete`: neither can ever fail with
`PermissionDenied`, any existing row (custom or not, owned or not) is
deleted, and a tag-free update is applied. -/
theorem falsy_user_bypass (db : DB) (id : Nat) (attrs : MediaUpdate)
    (uid : Option Nat) (huid : uid = none ∨ uid = some 0) :
    updateMedia db id attrs uid ≠ .error .permissionDenied ∧
    deleteMedia db id uid ≠ .error .permissionDenied ∧
    (∀ m, get_by_id db id none = some m →
      ∃ db', deleteMedia db id uid = .ok (true, db')) ∧
    (∀ m, get_by_id db id none = some m → attrs.tags = none →
      updateMedia db id attrs uid =
        .ok { db with media := db.media.map (fun r =>
                if r.id == id then applyMediaUpdate m attrs else r) }) := by
  have hfalsy : optNatTruthy uid = false := by
    rcases huid with rfl | rfl <;> simp [optNatTruthy]
  refine ⟨?_, ?_, ?_, ?_⟩
  · cases hg : get_by_id db id none with
    | none =>
      unfold updateMedia
      rw [hg]
      simp
    | some m =>
      rw [updateMedia_found db id attrs uid m hg, hfalsy]
      simp only [Bool.false_and, Bool.false_eq_true, if_false]
      split
      · intro hcontra
        have := update_media_tags_error hcontra
        cases this
      · intro hcontra
        cases hcontra
  · cases hg : get_by_id db id none with
    | none =>
      unfold deleteMedia
      rw [hg]
      simp
    | some m =>
      rw [deleteMedia_found db id uid m hg, hfalsy]
      simp
  · intro m hm
    rw [deleteMedia_found db id uid m hm, hfalsy]
    simp only [Bool.false_and, Bool.false_eq_true, if_false]
    exact ⟨_, rfl⟩
  · intro m hm htags
    rw [updateMedia_found db id attrs uid m hm, hfalsy, htags]
    simp

/-- C10 witness: with `user_id = 0`, the non-custom row 1 is updated and
deleted without `PermissionDenied`. -/
theorem falsy_user_bypass_witness :
    ((some 0 : Option Nat) = none ∨ (some 0 : Option Nat) = some 0) ∧
    updateMedia exDbFull 1 exUpdateTitle (some 0) ≠
      .error .permissionDenied ∧
    (∃ db', deleteMedia exDbFull 1 (some 0) = .ok (true, db')) := by
  have h := falsy_user_bypass exDbFull 1 exUpdateTitle (some 0) (Or.inr rfl)
  exact ⟨Or.inr rfl, h.1, h.2.2.1 exMovieExt rfl⟩

/-- C9: creating a custom media item (a payload with `is_custom` and a
truthy `user_id`, hence carrying no external identifiers) that duplicates
an existing custom item of the same user and kind — title equal up to
case, release date equal or both absent — fails with `AlreadyExists`
before any insert; the error aborts the transaction, leaving the catalog
unchanged. -/
theorem custom_duplicate_rejected (db : DB) (attrs : MediaCreate)
    (mt : MediaType) (u : Nat) (m : MediaRow)
    (hu : u ≠ 0) (hc : attrs.is_custom = true)
    (hext : optStrTruthy attrs.external_id = false ∨
            optStrTruthy attrs.external_source = false)
    (hmem : m ∈ db.media) (hmc : m.is_custom = true)
    (hown : m.created_by_id = some u) (hkind : m.media_type = mt)
    (htitle : pyLower m.title = pyLower attrs.title)
    (hdate : m.release_date = attrs.release_date) :
    createMedia db attrs mt (some u) = .error .alreadyExists := by
  unfold createMedia
  have hcond : (optStrTruthy attrs.external_id &&
      optStrTruthy attrs.external_source) = false := by
    rcases hext with h | h <;> simp [h]
  rw [hcond]
  simp only [Bool.false_eq_true, if_false]
  have hdup : customDuplicate db ((some u : Option Nat).getD 0) mt attrs.title
      attrs.release_date = true := by
    unfold customDuplicate
    rw [List.any_eq_true]
    refine ⟨m, hmem, ?_⟩
    rw [hmc, hown, hkind, ilike_of_lower_eq htitle]
    cases hatt : attrs.release_date with
    | none => rw [hdate, hatt]; simp
    | some d => rw [hdate, hatt]; simp
  have hco : (attrs.is_custom && optNatTruthy (some u)) = true := by
    rw [hc]
    simp [optNatTruthy, hu]
  rw [hco, hdup]
  simp

/-- C9 witness: user 5 re-creating their custom movie with the title in a
different case and the same (absent) release date is refused. -/
theorem custom_duplicate_rejected_witness :
    exCreateCustomDup.is_custom = true ∧
    exMovieCustom ∈ exDbFull.media ∧
    createMedia exDbFull exCreateCustomDup .movie (some 5) =
      .error .alreadyExists := by
  refine ⟨rfl, by decide, ?_⟩
  exact custom_duplicate_rejected exDbFull exCreateCustomDup .movie 5
    exMovieCustom (by decide) rfl (Or.inl rfl) (by decide) rfl rfl rfl
    (by decide) rfl

/-- C8 counterexample: the names `"Sci Fi"` and `"Sci-Fi"` are distinct
(even case-insensitively) and slugify to the same `"sci-fi"`, yet creating
the second tag does not succeed with a suffixed slug — `get_or_create`
uses the plain slug and the `tags.slug` unique constraint rejects it. -/
theorem slug_collision_cex :
    exName1 ≠ exName2 ∧
    pyLower exName1 ≠ pyLower exName2 ∧
    slugify exName1 = slugify exName2 ∧
    get_or_create dbEmpty exName1 = .ok (exTag1, exDbTag1) ∧
    get_or_create exDbTag1 exName2 = .error .integrityViolation := by
  exact ⟨by decide, by decide, rfl, rfl, rfl⟩

/-- C8 amended: when the trimmed name matches no existing tag
case-insensitively, `get_or_create` inserts a tag whose slug is the plain
slugified name — no `-1`, `-2`, … suffix exists — provided neither the
name nor that slug is already taken; when the plain slug already belongs
to another tag, the creation fails with a uniqueness violation, so two
tags with distinct names that slugify to the same slug cannot both be
created. -/
theorem get_or_create_plain_slug (db : DB) (name : String)
    (hmiss : get_by_name db (pyStrip name) = none) :
    ((∀ t ∈ db.tags, t.name ≠ pyStrip name ∧ t.slug ≠ slugify (pyStrip name)) →
      get_or_create db name =
        .ok (⟨db.next_tag_id, pyStrip name, slugify (pyStrip name)⟩,
          { db with
            tags := db.tags ++
              [⟨db.next_tag_id, pyStrip name, slugify (pyStrip name)⟩]
            next_tag_id := db.next_tag_id + 1 })) ∧
    ((∃ t ∈ db.tags, t.slug = slugify (pyStrip name)) →
      get_or_create db name = .error .integrityViolation) := by
  constructor
  · intro hfree
    unfold get_or_create
    simp only [] at hmiss ⊢
    rw [hmiss]
    unfold insertTag
    have : db.tags.any (fun t =>
        t.name == pyStrip name || t.slug == slugify (pyStrip name)) = false := by
      rw [List.any_eq_false]
      intro t ht
      have := hfree t ht
      simp [this.1, this.2]
    rw [this]
    simp
  · intro ⟨t, ht, hslug⟩
    unfold get_or_create
    simp only [] at hmiss ⊢
    rw [hmiss]
    unfold insertTag
    have : db.tags.any (fun t =>
        t.name == pyStrip name || t.slug == slugify (pyStrip name)) = true := by
      rw [List.any_eq_true]
      exact ⟨t, ht, by simp [hslug]⟩
    rw [this]
    simp

/-- C8 witness for the amended claim: `"Sci Fi"` is created with the plain
slug `"sci-fi"` on the empty database, and `"Sci-Fi"` is then refused. -/
theorem get_or_create_plain_slug_witness :
    get_by_name dbEmpty (pyStrip exName1) = none ∧
    get_by_name exDbTag1 (pyStrip exName2) = none ∧
    get_or_create dbEmpty exName1 =
      .ok (⟨1, pyStrip exName1, slugify (pyStrip exName1)⟩,
        { dbEmpty with
          tags := [⟨1, pyStrip exName1, slugify (pyStrip exName1)⟩]
          next_tag_id := 2 }) ∧
    get_or_create exDbTag1 exName2 = .error .integrityViolation := by
  refine ⟨rfl, rfl, ?_, ?_⟩
  · exact (get_or_create_plain_slug dbEmpty exName1 rfl).1 (by decide)
  · exact (get_or_create_plain_slug exDbTag1 exName2 rfl).2
      ⟨exTag1, by decide, rfl⟩

/-- The cascading media deletion issued by `CRUDTracking.delete` is never
refused: it passes the media's own `created_by_id` as the acting user, so
on a custom row the ownership check either is skipped (falsy owner) or
trivially succeeds. -/
theorem owner_delete_allowed (media : MediaRow) (hc : media.is_custom = true) :
    (optNatTruthy media.created_by_id &&
      !can_modify_media media (media.created_by_id.getD 0)) = false := by
  cases hcb : media.created_by_id with
  | none => simp [optNatTruthy]
  | some cu =>
    by_cases h0 : cu = 0
    · simp [optNatTruthy, h0]
    · simp [optNatTruthy, h0, can_modify_media, hc, hcb]

/-- C2: deleting a tracking entry removes it; when the media is custom the
media row is deleted in the same atomic operation and is no longer
retrievable, when it is not custom the media row is left untouched and
retrievable; with no entry for `(user_id, media_id)` the call returns
`false` and changes nothing.  The hypothesis is the table's
`uq_user_media` unique constraint. -/
theorem tracking_delete_cascade (db : DB) (u mid : Nat)
    (huq : ∀ t₁ ∈ db.tracking, ∀ t₂ ∈ db.tracking,
      t₁.user_id = t₂.user_id → t₁.media_id = t₂.media_id → t₁ = t₂) :
    (get_by_user_and_media db u mid = none →
      trackingDelete db u mid = .ok (false, db)) ∧
    (∀ tr media, get_by_user_and_media db u mid = some tr →
      get_by_id db mid none = some media →
      ∃ db', trackingDelete db u mid = .ok (true, db') ∧
        get_by_user_and_media db' u mid = none ∧
        (media.is_custom = true → get_by_id db' mid none = none) ∧
        (media.is_custom = false →
          get_by_id db' mid none = some media ∧ db'.media = db.media)) := by
  constructor
  · intro hmiss
    unfold trackingDelete
    rw [hmiss]
  · intro tr media htr hmedia
    have htr' : db.tracking.find?
        (fun t => t.user_id == u && t.media_id == mid) = some tr := htr
    have htrmem : tr ∈ db.tracking := List.mem_of_find?_eq_some htr'
    have htrprop := List.find?_some htr'
    simp only [Bool.and_eq_true, beq_iff_eq] at htrprop
    have htru : tr.user_id = u := htrprop.1
    have htrm : tr.media_id = mid := htrprop.2
    unfold trackingDelete
    rw [htr, hmedia]
    simp only []
    cases hcust : media.is_custom with
    | true =>
      have hmedia1 : get_by_id
          { db with tracking := db.tracking.filter (fun t => !(t.id == tr.id)) }
          mid none = some media := hmedia
      rw [deleteMedia_found _ mid media.created_by_id media hmedia1,
        owner_delete_allowed media hcust]
      simp only [Bool.false_eq_true, if_false]
      refine ⟨_, rfl, ?_, fun _ => ?_, fun hfalse => ?_⟩
      · unfold get_by_user_and_media
        rw [List.find?_eq_none]
        intro t ht
        have ht' := List.of_mem_filter ht
        simp only [Bool.not_eq_eq_eq_not, Bool.not_true, beq_eq_false_iff_ne,
          ne_eq] at ht'
        intro hcontra
        simp only [Bool.and_eq_true, beq_iff_eq] at hcontra
        exact ht' hcontra.2
      · unfold get_by_id
        rw [List.find?_eq_none]
        intro m hm
        have hm' := List.of_mem_filter hm
        simp only [Bool.not_eq_eq_eq_not, Bool.not_true, beq_eq_false_iff_ne,
          ne_eq] at hm'
        intro hcontra
        simp only [Bool.and_eq_true, beq_iff_eq] at hcontra
        exact hm' hcontra.1
      · cases hfalse
    | false =>
      refine ⟨_, rfl, ?_, fun htrue => ?_, fun _ => ⟨hmedia, rfl⟩⟩
      · unfold get_by_user_and_media
        rw [List.find?_eq_none]
        intro t ht
        have htmem : t ∈ db.tracking := List.mem_of_mem_filter ht
        have ht' := List.of_mem_filter ht
        simp only [Bool.not_eq_eq_eq_not, Bool.not_true, beq_eq_false_iff_ne,
          ne_eq] at ht'
        intro hcontra
        simp only [Bool.and_eq_true, beq_iff_eq] at hcontra
        have : t = tr := huq t htmem tr htrmem
          (by rw [hcontra.1, htru]) (by rw [hcontra.2, htrm])
        exact ht' (by rw [this])
      · cases htrue

/-- C2 witness: on `exDbFull`, deleting the entry of user 5 on custom
media 2 removes both; deleting the entry on external media 1 keeps the
media; user 9 has no entry and nothing changes. -/
theorem tracking_delete_cascade_witness :
    trackingDelete exDbFull 9 2 = .ok (false, exDbFull) ∧
    (∃ db', trackingDelete exDbFull 5 2 = .ok (true, db') ∧
      get_by_user_and_media db' 5 2 = none ∧
      get_by_id db' 2 none = none) ∧
    (∃ db', trackingDelete exDbFull 5 1 = .ok (true, db') ∧
      get_by_user_and_media db' 5 1 = none ∧
      get_by_id db' 1 none = some exMovieExt) := by
  have huq : ∀ t₁ ∈ exDbFull.tracking, ∀ t₂ ∈ exDbFull.tracking,
      t₁.user_id = t₂.user_id → t₁.media_id = t₂.media_id → t₁ = t₂ := by
    decide
  refine ⟨(tracking_delete_cascade exDbFull 9 2 huq).1 rfl, ?_, ?_⟩
  · obtain ⟨db', h1, h2, h3, _⟩ :=
      (tracking_delete_cascade exDbFull 5 2 huq).2 exTrackingCustom
        exMovieCustom rfl rfl
    exact ⟨db', h1, h2, h3 rfl⟩
  · obtain ⟨db', h1, h2, _, h4⟩ :=
      (tracking_delete_cascade exDbFull 5 1 huq).2 exTrackingExt
        exMovieExt rfl rfl
    exact ⟨db', h1, h2, (h4 rfl).1⟩

/-- `get_or_create` only ever touches the `tags` table and its counter. -/
theorem get_or_create_state {db : DB} {n : String} {t : TagRow} {db' : DB}
    (h : get_or_create db n = .ok (t, db')) :
    db'.media = db.media ∧ db'.tracking = db.tracking := by
  unfold get_or_create at h
  simp only [] at h
  split at h
  · cases h; exact ⟨rfl, rfl⟩
  · unfold insertTag at h
    split at h
    · cases h
    · cases h; exact ⟨rfl, rfl⟩

/-- `addOneTag` leaves the `media` and `tracking` tables untouched. -/
theorem addOneTag_state {mid : Nat} {mt : MediaType} {db : DB} {n : String}
    {db' : DB} (h : addOneTag mid mt db n = .ok db') :
    db'.media = db.media ∧ db'.tracking = db.tracking := by
  unfold addOneTag at h
  cases hg : get_or_create db n with
  | error e =>
    rw [hg] at h
    simp only [bind, Except.bind] at h
    cases h
  | ok p =>
    obtain ⟨tag, db2⟩ := p
    have hst := get_or_create_state hg
    rw [hg] at h
    simp only [bind, Except.bind] at h
    split at h
    · simp only [pure, Except.pure, Except.ok.injEq] at h
      rw [← h]
      exact hst
    · simp only [pure, Except.pure, Except.ok.injEq] at h
      rw [← h]
      exact hst

/-- The tag-adding fold leaves `media` and `tracking` untouched. -/
theorem foldl_addOneTag_state {mid : Nat} {mt : MediaType} :
    ∀ (names : List String) (db db' : DB),
      names.foldlM (addOneTag mid mt) db = .ok db' →
      db'.media = db.media ∧ db'.tracking = db.tracking := by
  intro names
  induction names with
  | nil =>
    intro db db' h
    simp only [List.foldlM_nil, pure, Except.pure, Except.ok.injEq] at h
    rw [← h]
    exact ⟨rfl, rfl⟩
  | cons n ns ih =>
    intro db db' h
    rw [List.foldlM_cons] at h
    cases hg : addOneTag mid mt db n with
    | error e =>
      rw [hg] at h
      simp only [bind, Except.bind] at h
      cases h
    | ok db1 =>
      rw [hg] at h
      simp only [bind, Except.bind] at h
      have h1 := addOneTag_state hg
      have h2 := ih db1 db' h
      exact ⟨h2.1.trans h1.1, h2.2.trans h1.2⟩

/-- `add_tags_to_media` leaves `media` and `tracking` untouched. -/
theorem add_tags_to_media_state {db : DB} {mid : Nat} {mt : MediaType}
    {names : List String} {db' : DB}
    (h : add_tags_to_media db mid mt names = .ok db') :
    db'.media = db.media ∧ db'.tracking = db.tracking := by
  unfold add_tags_to_media at h
  split at h
  · cases h; exact ⟨rfl, rfl⟩
  · exact foldl_addOneTag_state _ _ _ h

/-- When the external-dedup branch misses, a successful `createMedia`
returns the fresh surrogate id and appends exactly one row, built from the
payload, to the `media` table. -/
theorem createMedia_ok_media (db : DB) (attrs : MediaCreate) (mt : MediaType)
    (uid : Option Nat) (i : Nat) (db1 : DB)
    (hmiss : (if optStrTruthy attrs.external_id &&
          optStrTruthy attrs.external_source then
        get_by_external_id db (attrs.external_id.getD "")
          (attrs.external_source.getD "") mt
      else none) = none)
    (hok : createMedia db attrs mt uid = .ok (i, db1)) :
    i = db.next_media_id ∧
    db1.media = db.media ++
      [{ id := db.next_media_id, media_type := mt, title := attrs.title,
         description := attrs.description,
         release_date := attrs.release_date,
         cover_image_url := attrs.cover_image_url,
         external_id := attrs.external_id,
         external_source := attrs.external_source,
         is_custom := attrs.is_custom,
         created_by_id :=
           if attrs.is_custom && optNatTruthy uid then uid else none }] := by
  unfold createMedia at hok
  rw [hmiss] at hok
  simp only [] at hok
  split at hok
  · cases hok
  · split at hok
    · rename_i db2 heq
      simp only [Except.ok.injEq, Prod.mk.injEq] at hok
      obtain ⟨hi, hdb⟩ := hok
      subst hi hdb
      refine ⟨rfl, ?_⟩
      split at heq
      · exact (add_tags_to_media_state heq).1
      · simp only [Except.ok.injEq] at heq
        rw [← heq]
    · cases hok

/-- C1: external-ingestion dedup idempotence.  When a row with the same
`(external_id, external_source, media_kind)` triple already exists,
`createMedia` returns that row's id and leaves the database exactly as it
was (no insert, no update of any field, no tag change); when no such row
exists, a first successful call followed by a second call with the same
payload yields the same id both times, the second call changes nothing,
and exactly one row with that dedup key exists afterwards. -/
theorem createExternal_dedup (db : DB) (attrs : MediaCreate) (mt : MediaType)
    (uid : Option Nat) (e s : String)
    (he : attrs.external_id = some e) (hs : attrs.external_source = some s)
    (hne : e ≠ "") (hns : s ≠ "") :
    (∀ m, get_by_external_id db e s mt = some m →
      createMedia db attrs mt uid = .ok (m.id, db)) ∧
    (get_by_external_id db e s mt = none →
      ∀ i db1, createMedia db attrs mt uid = .ok (i, db1) →
        createMedia db1 attrs mt uid = .ok (i, db1) ∧
        (db1.media.filter (fun m =>
          m.external_id == some e && m.external_source == some s &&
            m.media_type == mt)).length = 1) := by
  have hcond : (optStrTruthy attrs.external_id &&
      optStrTruthy attrs.external_source) = true := by
    rw [he, hs]
    simp [optStrTruthy, hne, hns]
  have hgetd : attrs.external_id.getD "" = e := by rw [he]; rfl
  have hgetd2 : attrs.external_source.getD "" = s := by rw [hs]; rfl
  constructor
  · intro m hm
    unfold createMedia
    simp only [hcond, hgetd, hgetd2, if_true]
    rw [hm]
  · intro hnone i db1 hok
    have hmiss : (if optStrTruthy attrs.external_id &&
          optStrTruthy attrs.external_source then
        get_by_external_id db (attrs.external_id.getD "")
          (attrs.external_source.getD "") mt
      else none) = none := by
      simp only [hcond, hgetd, hgetd2, if_true]
      exact hnone
    obtain ⟨hi, hmedia⟩ := createMedia_ok_media db attrs mt uid i db1 hmiss hok
    have hrow : ((fun m : MediaRow =>
        m.external_id == some e && m.external_source == some s &&
          m.media_type == mt)
        { id := db.next_media_id, media_type := mt, title := attrs.title,
          description := attrs.description,
          release_date := attrs.release_date,
          cover_image_url := attrs.cover_image_url,
          external_id := attrs.external_id,
          external_source := attrs.external_source,
          is_custom := attrs.is_custom,
          created_by_id :=
            if attrs.is_custom && optNatTruthy uid then uid else none })
        = true := by
      simp only [he, hs]
      simp
    have hfind : get_by_external_id db1 e s mt = some
        { id := db.next_media_id, media_type := mt, title := attrs.title,
          description := attrs.description,
          release_date := attrs.release_date,
          cover_image_url := attrs.cover_image_url,
          external_id := attrs.external_id,
          external_source := attrs.external_source,
          is_custom := attrs.is_custom,
          created_by_id :=
            if attrs.is_custom && optNatTruthy uid then uid else none } := by
      unfold get_by_external_id at hnone ⊢
      rw [hmedia, List.find?_append, hnone, Option.none_or]
      simp [List.find?, he, hs]
    constructor
    · unfold createMedia
      simp only [hcond, hgetd, hgetd2, if_true]
      rw [hfind]
      simp [hi]
    · rw [hmedia, List.filter_append]
      have hnil : db.media.filter (fun m =>
          m.external_id == some e && m.external_source == some s &&
            m.media_type == mt) = [] := by
        rw [List.filter_eq_nil_iff]
        unfold get_by_external_id at hnone
        rw [List.find?_eq_none] at hnone
        exact hnone
      rw [hnil]
      simp [List.filter, he, hs]

/-- C1 witness: ingesting `("438631", "tmdb", movie)` into the empty
database twice yields id 1 both times and a single matching row; a third
call on a database already holding the row returns it unchanged. -/
theorem createExternal_dedup_witness :
    (∃ db1, createMedia dbEmpty exCreateExt .movie none = .ok (1, db1) ∧
      createMedia db1 exCreateExt .movie none = .ok (1, db1) ∧
      (db1.media.filter (fun m =>
        m.external_id == some ("438631" : String) &&
          m.external_source == some ("tmdb" : String) &&
          m.media_type == MediaType.movie)).length = 1) ∧
    createMedia exDbFull exCreateExt .movie none = .ok (1, exDbFull) := by
  constructor
  · have h := (createExternal_dedup dbEmpty exCreateExt .movie none
      ("438631") ("tmdb") rfl rfl (by decide) (by decide)).2 rfl 1 _ rfl
    exact ⟨_, rfl, h.1, h.2⟩
  · exact (createExternal_dedup exDbFull exCreateExt .movie none
      ("438631") ("tmdb") rfl rfl (by decide) (by decide)).1 exMovieExt rfl

/-- The sweep loop of `cleanup_orphaned_media`, generalized: deleting a
duplicate-free list of ids that all resolve to media rows succeeds, adds
one to the counter per id, and removes from the three affected tables
exactly the rows keyed by those ids. -/
theorem sweep_fold : ∀ (ids : List Nat) (db : DB) (c : Nat),
    (∀ j ∈ ids, ∃ m ∈ db.media, m.id = j) → ids.Nodup →
    ids.foldlM sweepStep (c, db) =
    .ok (c + ids.length,
      { db with
        media := db.media.filter (fun m => !(ids.contains m.id))
        media_tags :=
          db.media_tags.filter (fun a => !(ids.contains a.media_id))
        tracking :=
          db.tracking.filter (fun t => !(ids.contains t.media_id)) }) := by
  intro ids
  induction ids with
  | nil =>
    intro db c hex hnd
    simp [List.foldlM_nil, pure, Except.pure, List.contains_nil,
      List.filter_true]
  | cons j rest ih =>
    intro db c hex hnd
    obtain ⟨m0, hm0mem, hm0id⟩ := hex j (List.mem_cons_self j rest)
    have hfind : ∃ mm, get_by_id db j none = some mm := by
      cases hg : get_by_id db j none with
      | some mm => exact ⟨mm, rfl⟩
      | none =>
        exfalso
        unfold get_by_id at hg
        rw [List.find?_eq_none] at hg
        have := hg m0 hm0mem
        simp [hm0id] at this
    obtain ⟨mm, hmm⟩ := hfind
    have hdel : deleteMedia db j none = .ok (true,
        { db with
          media := db.media.filter (fun r => !(r.id == j))
          media_tags := db.media_tags.filter (fun a => !(a.media_id == j))
          tracking := db.tracking.filter (fun t => !(t.media_id == j)) }) := by
      rw [deleteMedia_found db j none mm hmm]
      simp [optNatTruthy]
    have hj : j ∉ rest := by
      rw [List.nodup_cons] at hnd
      exact hnd.1
    have hnd' : rest.Nodup := hnd.of_cons
    have hex' : ∀ k ∈ rest, ∃ m ∈
        (db.media.filter (fun r => !(r.id == j))), m.id = k := by
      intro k hk
      obtain ⟨m, hmmem, hmid⟩ := hex k (List.mem_cons_of_mem j hk)
      refine ⟨m, List.mem_filter.mpr ⟨hmmem, ?_⟩, hmid⟩
      have : k ≠ j := by
        intro hkj
        exact hj (hkj ▸ hk)
      simp [hmid, this]
    have hstep : sweepStep (c, db) j = .ok (c + 1,
        { db with
          media := db.media.filter (fun r => !(r.id == j))
          media_tags := db.media_tags.filter (fun a => !(a.media_id == j))
          tracking := db.tracking.filter (fun t => !(t.media_id == j)) }) := by
      unfold sweepStep
      simp only [hdel, bind, Except.bind, pure, Except.pure]
      simp
    rw [List.foldlM_cons, hstep]
    simp only [bind, Except.bind]
    rw [ih _ (c + 1) hex' hnd']
    simp only [Except.ok.injEq, Prod.mk.injEq]
    refine ⟨by rw [List.length_cons]; omega, ?_⟩
    simp only [List.filter_filter]
    have h1 : db.media.filter (fun m =>
        !(rest.contains m.id) && !(m.id == j)) =
        db.media.filter (fun m => !((j :: rest).contains m.id)) := by
      apply List.filter_congr
      intro a _
      simp only [List.contains_cons, Bool.not_or]
      rw [Bool.and_comm]
    have h2 : db.media_tags.filter (fun a =>
        !(rest.contains a.media_id) && !(a.media_id == j)) =
        db.media_tags.filter (fun a => !((j :: rest).contains a.media_id)) := by
      apply List.filter_congr
      intro a _
      simp only [List.contains_cons, Bool.not_or]
      rw [Bool.and_comm]
    have h3 : db.tracking.filter (fun t =>
        !(rest.contains t.media_id) && !(t.media_id == j)) =
        db.tracking.filter (fun t => !((j :: rest).contains t.media_id)) := by
      apply List.filter_congr
      intro a _
      simp only [List.contains_cons, Bool.not_or]
      rw [Bool.and_comm]
    rw [h1, h2, h3]

/-- In a list of media rows with pairwise-distinct ids, `find?` by a
member's id returns exactly that member. -/
theorem find_by_id_of_nodup : ∀ (l : List MediaRow),
    (l.map (fun m => m.id)).Nodup → ∀ m ∈ l,
    l.find? (fun r => r.id == m.id) = some m := by
  intro l
  induction l with
  | nil =>
    intro _ m hm
    cases hm
  | cons a as ih =>
    intro hnd m hm
    rw [List.map_cons, List.nodup_cons] at hnd
    rcases List.mem_cons.mp hm with rfl | hm'
    · simp [List.find?]
    · have hne : (a.id == m.id) = false := by
        simp only [beq_eq_false_iff_ne, ne_eq]
        intro he
        exact hnd.1 (he ▸ List.mem_map_of_mem (fun x => x.id) hm')
      simp only [List.find?, hne]
      exact ih hnd.2 m hm'

/-- The `get_by_id` predicate with no type filter is just an id check. -/
theorem get_by_id_none_pred (db : DB) (id : Nat) :
    get_by_id db id none = db.media.find? (fun r => r.id == id) := by
  unfold get_by_id
  congr 1
  funext r
  simp

/-- C7: the orphan sweep deletes exactly the media rows referenced by no
tracking entry across all users (each through the catalog delete with no
`user_id`, so ownership is bypassed), returns their number, and leaves
every media row that is referenced by at least one tracking entry
retrievable unchanged.  The hypothesis is the primary-key uniqueness of
media ids. -/
theorem orphan_sweep (db : DB)
    (hids : (db.media.map (fun m => m.id)).Nodup) :
    ∃ db', cleanup_orphaned_media db = .ok ((orphanedIds db).length, db') ∧
      (∀ m ∈ db.media, (¬∃ t ∈ db.tracking, t.media_id = m.id) →
        get_by_id db' m.id none = none) ∧
      (∀ m ∈ db.media, (∃ t ∈ db.tracking, t.media_id = m.id) →
        get_by_id db' m.id none = some m) := by
  have hex : ∀ j ∈ orphanedIds db, ∃ m ∈ db.media, m.id = j := by
    intro j hj
    unfold orphanedIds at hj
    rw [List.mem_map] at hj
    obtain ⟨m, hm, hid⟩ := hj
    exact ⟨m, List.mem_of_mem_filter hm, hid⟩
  have hnd : (orphanedIds db).Nodup := by
    unfold orphanedIds
    exact hids.sublist ((List.filter_sublist db.media).map (fun m => m.id))
  have h0 : cleanup_orphaned_media db = .ok ((orphanedIds db).length,
      { db with
        media := db.media.filter
          (fun m => !((orphanedIds db).contains m.id))
        media_tags := db.media_tags.filter
          (fun a => !((orphanedIds db).contains a.media_id))
        tracking := db.tracking.filter
          (fun t => !((orphanedIds db).contains t.media_id)) }) := by
    unfold cleanup_orphaned_media
    rw [sweep_fold (orphanedIds db) db 0 hex hnd, Nat.zero_add]
  refine ⟨_, h0, ?_, ?_⟩
  · intro m hm horph
    have hmem : m.id ∈ orphanedIds db := by
      unfold orphanedIds
      rw [List.mem_map]
      refine ⟨m, List.mem_filter.mpr ⟨hm, ?_⟩, rfl⟩
      rw [Bool.not_eq_eq_eq_not, Bool.not_true, List.any_eq_false]
      intro t ht
      simp only [beq_iff_eq]
      intro he
      exact horph ⟨t, ht, he⟩
    rw [get_by_id_none_pred, List.find?_eq_none]
    intro r hr
    have hr' := List.of_mem_filter hr
    simp only [Bool.not_eq_eq_eq_not, Bool.not_true] at hr'
    simp only [beq_iff_eq]
    intro he
    rw [he] at hr'
    simp [hmem] at hr'
  · intro m hm ⟨t, ht, hid⟩
    have hnotorph : m.id ∉ orphanedIds db := by
      intro hmem
      unfold orphanedIds at hmem
      rw [List.mem_map] at hmem
      obtain ⟨m', hm', hid'⟩ := hmem
      have hm'mem := List.mem_of_mem_filter hm'
      have : m' = m :=
        List.inj_on_of_nodup_map hids hm'mem hm hid'
      subst this
      have := List.of_mem_filter hm'
      simp only [Bool.not_eq_eq_eq_not, Bool.not_true, List.any_eq_false]
        at this
      have := this t ht
      simp [hid] at this
    have hmem' : m ∈ db.media.filter
        (fun r => !((orphanedIds db).contains r.id)) := by
      refine List.mem_filter.mpr ⟨hm, ?_⟩
      simp [hnotorph]
    rw [get_by_id_none_pred]
    refine find_by_id_of_nodup _ ?_ m hmem'
    exact hids.sublist ((List.filter_sublist db.media).map (fun m => m.id))

/-- C7 witness: on `exDbOrphan`, media 2 is the only orphan — the sweep
reports one deletion, media 2 is gone and the tracked media 1 is still
retrievable. -/
theorem orphan_sweep_witness :
    orphanedIds exDbOrphan = [2] ∧
    (∃ db', cleanup_orphaned_media exDbOrphan = .ok (1, db') ∧
      get_by_id db' 2 none = none ∧
      get_by_id db' 1 none = some exMovieExt) := by
  refine ⟨rfl, ?_⟩
  obtain ⟨db', h1, h2, h3⟩ := orphan_sweep exDbOrphan (by decide)
  exact ⟨db', h1, h2 exMovieCustom (by decide) (by decide),
    h3 exMovieExt (by decide) ⟨exTrackingExt, by decide, rfl⟩⟩

/-- Dropping a prefix satisfying `p` twice is the same as doing it once. -/
theorem dropWhile_idem {α : Type} (p : α → Bool) (l : List α) :
    (l.dropWhile p).dropWhile p = l.dropWhile p := by
  induction l with
  | nil => rfl
  | cons a as ih =>
    rw [List.dropWhile_cons]
    split
    · exact ih
    · rename_i h
      rw [List.dropWhile_cons, if_neg h]

/-- The head surviving `dropWhile p` fails `p`. -/
theorem head_dropWhile_false {α : Type} (p : α → Bool) :
    ∀ (l : List α) (a : α) (as : List α),
      l.dropWhile p = a :: as → p a = false := by
  intro l
  induction l with
  | nil =>
    intro a as h
    cases h
  | cons b bs ih =>
    intro a as h
    rw [List.dropWhile_cons] at h
    split at h
    · exact ih a as h
    · rename_i hb
      cases h
      simpa using hb

/-- Stripping both ends of a list twice is the same as doing it once. -/
theorem stripList_idem {α : Type} (p : α → Bool) (d : List α) :
    ((((((d.dropWhile p).reverse.dropWhile p).reverse).dropWhile
        p).reverse).dropWhile p).reverse =
      ((d.dropWhile p).reverse.dropWhile p).reverse := by
  set A := d.dropWhile p with hA
  set B := A.reverse.dropWhile p with hB
  have hLdrop : B.reverse.dropWhile p = B.reverse := by
    cases hBr : B.reverse with
    | nil => rfl
    | cons c rest =>
      have hsuf : List.IsSuffix B A.reverse := by
        rw [hB]
        exact List.dropWhile_suffix p
      have hpre : List.IsPrefix B.reverse A := by
        have h2 := (List.reverse_prefix).mpr hsuf
        rwa [List.reverse_reverse] at h2
      obtain ⟨t, ht⟩ := hpre
      rw [hBr] at ht
      have hAc : A = c :: (rest ++ t) := by
        rw [← ht]
        rfl
      have hc : p c = false :=
        head_dropWhile_false p d c (rest ++ t) (by rw [← hA]; exact hAc)
      rw [List.dropWhile_cons, if_neg (by simp [hc])]
  rw [hLdrop, List.reverse_reverse]
  have hBd : B.dropWhile p = B := by
    rw [hB]
    exact dropWhile_idem p A.reverse
  rw [hBd]

/-- Python `strip` is idempotent. -/
theorem pyStrip_idem (s : String) : pyStrip (pyStrip s) = pyStrip s :=
  congrArg String.mk (stripList_idem Char.isWhitespace s.data)

/-- Patterns equal up to case give the same `ILIKE` verdict. -/
theorem ilike_pattern_congr {v p₁ p₂ : String}
    (h : pyLower p₁ = pyLower p₂) : ilike v p₁ = ilike v p₂ := by
  unfold ilike
  rw [h]

/-- Invariants of the de-duplication fold: kept names and seen lower-cased
forms only grow; every kept name is the strip of a supplied name and is
non-empty; the lower-cased strip of every non-empty supplied name ends up
seen; and every seen form is witnessed by a kept name. -/
theorem dedup_fold_spec : ∀ (names : List String)
    (acc : List String × List String),
    (∀ x ∈ acc.1, x ∈ (names.foldl dedupStep acc).1) ∧
    (∀ s ∈ acc.2, s ∈ (names.foldl dedupStep acc).2) ∧
    (∀ x ∈ (names.foldl dedupStep acc).1,
      x ∈ acc.1 ∨ ∃ n₀ ∈ names, x = pyStrip n₀ ∧ ¬(x = "")) ∧
    (∀ n₀ ∈ names, ¬(pyStrip n₀ = "") →
      pyLower (pyStrip n₀) ∈ (names.foldl dedupStep acc).2) ∧
    ((∀ s ∈ acc.2, ∃ x ∈ acc.1, pyLower x = s) →
      ∀ s ∈ (names.foldl dedupStep acc).2,
        ∃ x ∈ (names.foldl dedupStep acc).1, pyLower x = s) := by
  intro names
  induction names with
  | nil =>
    intro acc
    exact ⟨fun x hx => hx, fun s hs => hs, fun x hx => Or.inl hx,
      fun n₀ h => absurd h (List.not_mem_nil n₀), fun h => h⟩
  | cons n ns ih =>
    intro acc
    rw [List.foldl_cons]
    obtain ⟨ihm1, ihm2, ihprov, ihseen, ihinv⟩ := ih (dedupStep acc n)
    have hstep1 : ∀ x ∈ acc.1, x ∈ (dedupStep acc n).1 := by
      intro x hx
      unfold dedupStep
      simp only []
      split
      · exact List.mem_append_left _ hx
      · exact hx
    have hstep2 : ∀ s ∈ acc.2, s ∈ (dedupStep acc n).2 := by
      intro s hs
      unfold dedupStep
      simp only []
      split
      · exact List.mem_append_left _ hs
      · exact hs
    have hstep3 : ∀ x ∈ (dedupStep acc n).1,
        x ∈ acc.1 ∨ (x = pyStrip n ∧ ¬(x = "")) := by
      intro x hx
      unfold dedupStep at hx
      simp only [] at hx
      split at hx
      · rename_i hcond
        rcases List.mem_append.mp hx with hx1 | hx2
        · exact Or.inl hx1
        · have hx' : x = pyStrip n := by simpa using hx2
          refine Or.inr ⟨hx', ?_⟩
          rw [Bool.and_eq_true, Bool.not_eq_true', beq_eq_false_iff_ne]
            at hcond
          rw [hx']
          exact hcond.1
      · exact Or.inl hx
    have hstep4 : ¬(pyStrip n = "") →
        pyLower (pyStrip n) ∈ (dedupStep acc n).2 := by
      intro hne
      unfold dedupStep
      simp only []
      split
      · exact List.mem_append_right _ (by simp)
      · rename_i hcond
        rw [Bool.not_eq_true, Bool.and_eq_false_iff] at hcond
        rcases hcond with hc | hc
        · rw [Bool.not_eq_false', beq_iff_eq] at hc
          exact absurd hc hne
        · rw [Bool.not_eq_false'] at hc
          simp at hc
          exact hc
    have hstep5 : (∀ s ∈ acc.2, ∃ x ∈ acc.1, pyLower x = s) →
        ∀ s ∈ (dedupStep acc n).2,
          ∃ x ∈ (dedupStep acc n).1, pyLower x = s := by
      intro hbase s hs
      unfold dedupStep at hs ⊢
      simp only [] at hs ⊢
      split at hs
      · rename_i hcond
        rcases List.mem_append.mp hs with hs1 | hs2
        · obtain ⟨x, hx, hlx⟩ := hbase s hs1
          exact ⟨x, by rw [if_pos hcond]; exact List.mem_append_left _ hx,
            hlx⟩
        · have hs' : s = pyLower (pyStrip n) := by simpa using hs2
          refine ⟨pyStrip n, ?_, hs'.symm⟩
          rw [if_pos hcond]
          exact List.mem_append_right _ (by simp)
      · rename_i hcond
        obtain ⟨x, hx, hlx⟩ := hbase s hs
        exact ⟨x, by rw [if_neg hcond]; exact hx, hlx⟩
    refine ⟨fun x hx => ihm1 x (hstep1 x hx),
      fun s hs => ihm2 s (hstep2 s hs), ?_, ?_, ?_⟩
    · intro x hx
      rcases ihprov x hx with h | ⟨n₀, hn₀, hx', hne⟩
      · rcases hstep3 x h with h' | ⟨hx', hne⟩
        · exact Or.inl h'
        · exact Or.inr ⟨n, List.mem_cons_self n ns, hx', hne⟩
      · exact Or.inr ⟨n₀, List.mem_cons_of_mem n hn₀, hx', hne⟩
    · intro n₀ hn₀ hne
      rcases List.mem_cons.mp hn₀ with rfl | hn₀'
      · exact ihm2 _ (hstep4 hne)
      · exact ihseen n₀ hn₀' hne
    · intro hbase
      exact ihinv (hstep5 hbase)

/-- Every name kept by the de-duplication is the strip of some supplied
name and is non-empty. -/
theorem dedupNames_sound (names : List String) :
    ∀ x ∈ dedupNames names, ∃ n₀ ∈ names, x = pyStrip n₀ ∧ ¬(x = "") := by
  intro x hx
  rcases (dedup_fold_spec names ([], [])).2.2.1 x hx with h | h
  · cases h
  · exact h

/-- Every supplied name with a non-empty strip has a kept name equal to it
up to case. -/
theorem dedupNames_complete (names : List String) :
    ∀ n₀ ∈ names, ¬(pyStrip n₀ = "") →
      ∃ x ∈ dedupNames names, pyLower x = pyLower (pyStrip n₀) := by
  intro n₀ h hne
  exact (dedup_fold_spec names ([], [])).2.2.2.2
    (by intro s hs; cases hs)
    _ ((dedup_fold_spec names ([], [])).2.2.2.1 n₀ h hne)

/-- What `get_or_create` guarantees on success: existing tags survive, the
returned tag is in the table and `ILIKE`-matches the stripped name, and
the association table is untouched. -/
theorem get_or_create_spec {db : DB} {n : String} {t : TagRow} {db' : DB}
    (h : get_or_create db n = .ok (t, db')) :
    (∀ t' ∈ db.tags, t' ∈ db'.tags) ∧ t ∈ db'.tags ∧
    ilike t.name (pyStrip n) = true ∧ db'.media_tags = db.media_tags := by
  unfold get_or_create at h
  simp only [] at h
  cases hg : get_by_name db (pyStrip n) with
  | some t0 =>
    rw [hg] at h
    simp only [Except.ok.injEq, Prod.mk.injEq] at h
    obtain ⟨ht, hdb⟩ := h
    have hg' : db.tags.find? (fun tt => ilike tt.name (pyStrip n)) =
        some t := by
      rw [← ht]
      exact hg
    subst hdb
    have hil := List.find?_some hg'
    exact ⟨fun t' ht' => ht', List.mem_of_find?_eq_some hg', hil, rfl⟩
  | none =>
    rw [hg] at h
    simp only [] at h
    unfold insertTag at h
    split at h
    · cases h
    · simp only [Except.ok.injEq, Prod.mk.injEq] at h
      obtain ⟨ht, hdb⟩ := h
      subst ht
      subst hdb
      refine ⟨fun t' ht' => List.mem_append_left _ ht',
        List.mem_append_right _ (by simp), ?_, rfl⟩
      exact ilike_of_lower_eq rfl

/-- What one loop iteration of `add_tags_to_media` guarantees on success:
tables only grow, some tag matching the name is associated with the media,
and any new association is exactly the one for that tag. -/
theorem addOneTag_spec {mid : Nat} {mt : MediaType} {st : DB} {n : String}
    {st' : DB} (h : addOneTag mid mt st n = .ok st') :
    (∀ t ∈ st.tags, t ∈ st'.tags) ∧
    (∀ a ∈ st.media_tags, a ∈ st'.media_tags) ∧
    ∃ t : TagRow, t ∈ st'.tags ∧ ilike t.name (pyStrip n) = true ∧
      (∃ a ∈ st'.media_tags, a.media_id = mid ∧ a.tag_id = t.id) ∧
      (∀ a ∈ st'.media_tags, a ∈ st.media_tags ∨
        a = ⟨mid, t.id, mt⟩) := by
  unfold addOneTag at h
  cases hg : get_or_create st n with
  | error e =>
    rw [hg] at h
    simp only [bind, Except.bind] at h
    cases h
  | ok p =>
    obtain ⟨tag, st2⟩ := p
    obtain ⟨hmono, htagmem, hilike, hmt⟩ := get_or_create_spec hg
    rw [hg] at h
    simp only [bind, Except.bind] at h
    split at h
    · rename_i hany
      simp only [pure, Except.pure, Except.ok.injEq] at h
      subst h
      rw [List.any_eq_true] at hany
      obtain ⟨a, ha, hab⟩ := hany
      simp only [Bool.and_eq_true, beq_iff_eq] at hab
      refine ⟨hmono, ?_, tag, htagmem, hilike,
        ⟨a, ha, hab.1, hab.2⟩, ?_⟩
      · intro a' ha'
        rw [hmt]
        exact ha'
      · intro a' ha'
        rw [hmt] at ha'
        exact Or.inl ha'
    · simp only [pure, Except.pure, Except.ok.injEq] at h
      subst h
      refine ⟨hmono, ?_, tag, htagmem, hilike, ?_, ?_⟩
      · intro a' ha'
        refine List.mem_append_left _ ?_
        rw [hmt]
        exact ha'
      · exact ⟨⟨mid, tag.id, mt⟩, List.mem_append_right _ (by simp),
          rfl, rfl⟩
      · intro a' ha'
        rcases List.mem_append.mp ha' with h1 | h1
        · rw [hmt] at h1
          exact Or.inl h1
        · right
          simpa using h1

/-- What the whole tagging loop guarantees on success, by induction. -/
theorem fold_addOneTag_spec {mid : Nat} {mt : MediaType} :
    ∀ (ns : List String) (st st' : DB),
      ns.foldlM (addOneTag mid mt) st = .ok st' →
      (∀ t ∈ st.tags, t ∈ st'.tags) ∧
      (∀ a ∈ st.media_tags, a ∈ st'.media_tags) ∧
      (∀ a ∈ st'.media_tags, a ∈ st.media_tags ∨
        ∃ t ∈ st'.tags, a.tag_id = t.id ∧ a.media_id = mid ∧
          a.media_type = mt ∧
          ∃ n ∈ ns, ilike t.name (pyStrip n) = true) ∧
      (∀ n ∈ ns, ∃ t ∈ st'.tags, ilike t.name (pyStrip n) = true ∧
        ∃ a ∈ st'.media_tags, a.media_id = mid ∧ a.tag_id = t.id) := by
  intro ns
  induction ns with
  | nil =>
    intro st st' h
    simp only [List.foldlM_nil, pure, Except.pure, Except.ok.injEq] at h
    subst h
    exact ⟨fun t ht => ht, fun a ha => ha, fun a ha => Or.inl ha,
      fun n hn => absurd hn (List.not_mem_nil n)⟩
  | cons n ns ih =>
    intro st st' h
    rw [List.foldlM_cons] at h
    cases hg : addOneTag mid mt st n with
    | error e =>
      rw [hg] at h
      simp only [bind, Except.bind] at h
      cases h
    | ok st1 =>
      rw [hg] at h
      simp only [bind, Except.bind] at h
      obtain ⟨ihtag, ihassoc, ihprov, ihback⟩ := ih st1 st' h
      obtain ⟨stag, sassoc, t0, ht0mem, ht0il, ⟨a0, ha0, ha0m, ha0t⟩,
        sprov⟩ := addOneTag_spec hg
      refine ⟨fun t ht => ihtag t (stag t ht),
        fun a ha => ihassoc a (sassoc a ha), ?_, ?_⟩
      · intro a ha
        rcases ihprov a ha with h1 | ⟨t, htmem, h2, h3, h4, n', hn', hil⟩
        · rcases sprov a h1 with h3 | h3
          · exact Or.inl h3
          · refine Or.inr ⟨t0, ihtag t0 ht0mem, ?_, ?_, ?_,
              n, List.mem_cons_self n ns, ht0il⟩
            · rw [h3]
            · rw [h3]
            · rw [h3]
        · exact Or.inr ⟨t, htmem, h2, h3, h4,
            n', List.mem_cons_of_mem n hn', hil⟩
      · intro n' hn'
        rcases List.mem_cons.mp hn' with rfl | hn''
        · exact ⟨t0, ihtag t0 ht0mem, ht0il,
            a0, ihassoc a0 ha0, ha0m, ha0t⟩
        · exact ihback n' hn''

/-- What `add_tags_to_media` guarantees on success, phrased against the
caller-supplied (pre-normalization) names. -/
theorem add_tags_spec {db : DB} {mid : Nat} {mt : MediaType}
    {names : List String} {db' : DB}
    (h : add_tags_to_media db mid mt names = .ok db') :
    (∀ t ∈ db.tags, t ∈ db'.tags) ∧
    (∀ a ∈ db.media_tags, a ∈ db'.media_tags) ∧
    (∀ a ∈ db'.media_tags, a ∈ db.media_tags ∨
      ∃ t ∈ db'.tags, a.tag_id = t.id ∧ a.media_id = mid ∧
        a.media_type = mt ∧
        ∃ n₀ ∈ names, ¬(pyStrip n₀ = "") ∧
          ilike t.name (pyStrip n₀) = true) ∧
    (∀ n₀ ∈ names, ¬(pyStrip n₀ = "") →
      ∃ t ∈ db'.tags, ilike t.name (pyStrip n₀) = true ∧
        ∃ a ∈ db'.media_tags, a.media_id = mid ∧ a.tag_id = t.id) := by
  unfold add_tags_to_media at h
  split at h
  · rename_i hemp
    simp only [Except.ok.injEq] at h
    subst h
    rw [List.isEmpty_iff] at hemp
    subst hemp
    exact ⟨fun t ht => ht, fun a ha => ha, fun a ha => Or.inl ha,
      fun n hn => absurd hn (List.not_mem_nil n)⟩
  · obtain ⟨htag, hassoc, hprov, hback⟩ :=
      fold_addOneTag_spec (dedupNames names) db db' h
    refine ⟨htag, hassoc, ?_, ?_⟩
    · intro a ha
      rcases hprov a ha with h1 | ⟨t, htmem, h2, h3, h4, x, hx, hil⟩
      · exact Or.inl h1
      · obtain ⟨n₀, hn₀, hstrip, hne⟩ := dedupNames_sound names x hx
        rw [hstrip, pyStrip_idem] at hil
        refine Or.inr ⟨t, htmem, h2, h3, h4, n₀, hn₀, ?_, hil⟩
        rw [← hstrip]
        exact hne
    · intro n₀ hn₀ hne
      obtain ⟨x, hx, hlx⟩ := dedupNames_complete names n₀ hn₀ hne
      obtain ⟨t, htmem, hil, a, ha, ham, hat⟩ := hback x hx
      obtain ⟨x₁, _, hstrip1, _⟩ := dedupNames_sound names x hx
      rw [hstrip1, pyStrip_idem, ← hstrip1] at hil
      refine ⟨t, htmem, ?_, a, ha, ham, hat⟩
      rw [ilike_pattern_congr hlx.symm]
      exact hil

/-- C6: update frame condition.  On a successful authorized update, the
`media` table is the old one with only the target row replaced by the
field-merge `applyMediaUpdate`; the merge changes exactly the supplied
non-null fields and keeps every other field (the immutable columns
included); when the `tags` key is absent the association table is
untouched; when it is supplied (even as `[]`) the media's tag set is
replaced by exactly the supplied names — every remaining association for
the media matches some supplied (trimmed, non-empty) name
case-insensitively, every such name is represented by an association, and
the associations of every other media row are untouched. -/
theorem update_frame (db : DB) (id : Nat) (attrs : MediaUpdate)
    (uid : Option Nat) (m : MediaRow) (db' : DB)
    (hm : get_by_id db id none = some m)
    (hok : updateMedia db id attrs uid = .ok db') :
    db'.media = db.media.map (fun r =>
      if r.id == id then applyMediaUpdate m attrs else r) ∧
    ((applyMediaUpdate m attrs).id = m.id ∧
     (applyMediaUpdate m attrs).media_type = m.media_type ∧
     (applyMediaUpdate m attrs).external_id = m.external_id ∧
     (applyMediaUpdate m attrs).external_source = m.external_source ∧
     (applyMediaUpdate m attrs).is_custom = m.is_custom ∧
     (applyMediaUpdate m attrs).created_by_id = m.created_by_id ∧
     (applyMediaUpdate m attrs).title = attrs.title.getD m.title ∧
     ((applyMediaUpdate m attrs).description =
       match attrs.description with
       | some v => some v
       | none => m.description) ∧
     ((applyMediaUpdate m attrs).release_date =
       match attrs.release_date with
       | some v => some v
       | none => m.release_date) ∧
     ((applyMediaUpdate m attrs).cover_image_url =
       match attrs.cover_image_url with
       | some v => some v
       | none => m.cover_image_url)) ∧
    (attrs.tags = none → db'.media_tags = db.media_tags) ∧
    (∀ names, attrs.tags = some names →
      (∀ a ∈ db'.media_tags, a.media_id = id →
        ∃ t ∈ db'.tags, a.tag_id = t.id ∧
          ∃ n₀ ∈ names, ¬(pyStrip n₀ = "") ∧
            ilike t.name (pyStrip n₀) = true) ∧
      (∀ n₀ ∈ names, ¬(pyStrip n₀ = "") →
        ∃ t ∈ db'.tags, ilike t.name (pyStrip n₀) = true ∧
          ∃ a ∈ db'.media_tags, a.media_id = id ∧ a.tag_id = t.id) ∧
      (∀ a : MediaTagRow, ¬(a.media_id = id) →
        (a ∈ db'.media_tags ↔ a ∈ db.media_tags))) := by
  rw [updateMedia_found db id attrs uid m hm] at hok
  split at hok
  · cases hok
  · cases hat : attrs.tags with
    | none =>
      rw [hat] at hok
      simp only [Except.ok.injEq] at hok
      subst hok
      refine ⟨rfl,
        ⟨rfl, rfl, rfl, rfl, rfl, rfl, rfl, rfl, rfl, rfl⟩,
        fun _ => rfl, ?_⟩
      intro names hcontra
      cases hcontra
    | some names0 =>
      rw [hat] at hok
      simp only [] at hok
      unfold update_media_tags at hok
      obtain ⟨htag, hassoc, hprov, hback⟩ := add_tags_spec hok
      have hmedia : db'.media = db.media.map (fun r =>
          if r.id == id then applyMediaUpdate m attrs else r) :=
        (add_tags_to_media_state hok).1
      refine ⟨hmedia,
        ⟨rfl, rfl, rfl, rfl, rfl, rfl, rfl, rfl, rfl, rfl⟩, ?_, ?_⟩
      · intro hcontra
        cases hcontra
      · intro names heq
        cases heq
        refine ⟨?_, ?_, ?_⟩
        · intro a ha ham
          rcases hprov a ha with h1 | ⟨t, htmem, h2, h3, h4, n₀, hn₀, hne, hil⟩
          · have h1' := List.of_mem_filter h1
            simp only [Bool.not_eq_eq_eq_not, Bool.not_true,
              Bool.and_eq_false_iff, beq_eq_false_iff_ne, ne_eq] at h1'
            rcases h1' with h1' | h1'
            · exact absurd ham h1'
            · cases h1'
          · exact ⟨t, htmem, h2, n₀, hn₀, hne, hil⟩
        · intro n₀ hn₀ hne
          exact hback n₀ hn₀ hne
        · intro a hane
          constructor
          · intro ha
            rcases hprov a ha with h1 | ⟨t, htmem, h2, h3, h4, n₀, hn₀, hne, hil⟩
            · exact List.mem_of_mem_filter h1
            · exact absurd h3 hane
          · intro ha
            refine hassoc a (List.mem_filter.mpr ⟨ha, ?_⟩)
            simp [hane]

/-- C6 witness: replacing user 5's custom movie title and tag set with
`["Action", "ACTION", " Drama "]` updates only that row and associates the
media with tags matching both distinct names. -/
theorem update_frame_witness :
    ∃ db', updateMedia exDbFull 2 exUpdateWithTags (some 5) = .ok db' ∧
      db'.media = exDbFull.media.map (fun r =>
        if r.id == 2 then applyMediaUpdate exMovieCustom exUpdateWithTags
        else r) ∧
      (∃ t ∈ db'.tags, ilike t.name (pyStrip (" Drama ")) = true ∧
        ∃ a ∈ db'.media_tags, a.media_id = 2 ∧ a.tag_id = t.id) := by
  have h := update_frame exDbFull 2 exUpdateWithTags (some 5)
    exMovieCustom _ rfl rfl
  refine ⟨_, rfl, h.1, ?_⟩
  exact (h.2.2.2 _ rfl).2.1 (" Drama ") (by decide) (by decide)

end Listify
